import Mathlib

/-!
# Verification of the cursor-based pagination engine

A shallow embedding, in Lean 4, of the pagination core of a read-oriented
news REST API (`app/core/pagination.py`, `app/services/cursor_service.py`,
`app/services/news_service.py`, `app/utils/exceptions.py`):

* the cursor codec (`PaginationCursor.encode` / `PaginationCursor.decode`),
* the cursor query builder (`PaginationCursor.build_cursor_query`),
* the page assembler (`create_pagination_response`),
* the service-level orchestration (`NewsService.get_news_list`).

Python values appearing in cursor payloads are modelled by `PyValue`
(strings, integers, `None`, `datetime` values).  The external standard
library collaborators are modelled on the fragment this system exercises:

* `json.dumps(..., sort_keys=True)` / `json.loads` are modelled for flat
  objects whose values are strings, with `\"` and `\\` escapes; control
  characters and non-ASCII text (which `json.dumps` renders as \u-escapes)
  are outside the modelled fragment, and round-trip theorems carry a
  `jsonSafe` hypothesis restricting to it (cursor payloads produced by the
  system — hex ids and ISO timestamps — always lie inside the fragment);
* `base64.b64encode` / `base64.b64decode` are modelled in full for the
  standard alphabet, including the CPython behaviour of discarding
  characters outside the alphabet before decoding and rejecting input whose
  remaining length is not a multiple of four;
* `str.encode()` / `bytes.decode()` (UTF-8) are modelled on the ASCII
  fragment, which covers every token the system produces;
* `datetime.isoformat` and `datetime.fromisoformat` are modelled on the
  canonical `YYYY-MM-DD[THH:MM[:SS[.ffffff]]][+00:00]` grammar the codec
  emits, with Python's calendar validity checks.
-/

/-- Python `datetime.datetime`, restricted to the two timezone states this
system constructs: `utc = true` models `tzinfo=timezone.utc` (isoformat ends
in `+00:00`), `utc = false` models a naive datetime (no offset suffix). -/
structure PyDateTime where
  year : Nat
  month : Nat
  day : Nat
  hour : Nat
  minute : Nat
  second : Nat
  microsecond : Nat
  utc : Bool
deriving DecidableEq, Repr

/-- Decimal rendering of `n` left-padded with zeros to width `w`
(Python `%0*d` as used by `datetime.isoformat`). -/
def padNum (w n : Nat) : String :=
  let s := toString n
  String.mk (List.replicate (w - s.length) '0' ++ s.data)

/-- `datetime.isoformat()`: `YYYY-MM-DDTHH:MM:SS[.ffffff]` plus `+00:00`
for an aware UTC datetime; the microsecond part is omitted when zero. -/
def PyDateTime.isoformat (d : PyDateTime) : String :=
  padNum 4 d.year ++ "-" ++ padNum 2 d.month ++ "-" ++ padNum 2 d.day ++ "T" ++
    padNum 2 d.hour ++ ":" ++ padNum 2 d.minute ++ ":" ++ padNum 2 d.second ++
    (if d.microsecond = 0 then "" else "." ++ padNum 6 d.microsecond) ++
    (if d.utc then "+00:00" else "")

/-- Chronological key for a datetime: mixed-radix field tuple, with the
timezone flag as least-significant tie bit so that the order refines
structural equality. -/
def PyDateTime.key (d : PyDateTime) : Nat :=
  ((((((d.year * 13 + d.month) * 32 + d.day) * 24 + d.hour) * 60 + d.minute) * 60
      + d.second) * 1000000 + d.microsecond) * 2 + (if d.utc then 1 else 0)

/-- A Python value as it can appear in cursor payloads and documents. -/
inductive PyValue where
  | pyNone
  | str (s : String)
  | int (n : Int)
  | dt (d : PyDateTime)
deriving DecidableEq, Repr

/-- Python truthiness (`bool(v)`) restricted to the modelled values:
`None`, the empty string and `0` are falsy. -/
def PyValue.falsy : PyValue → Bool
  | .pyNone => true
  | .str s => s.data.isEmpty
  | .int n => n == 0
  | .dt _ => false

/-- Strips `pre` from the front of `s`, returning the remainder. -/
def stripPre : List Char → List Char → Option (List Char)
  | [], s => some s
  | _ :: _, [] => none
  | p :: ps, c :: cs => if c = p then stripPre ps cs else none

/-- Replaces every occurrence of the non-empty pattern `p0 :: ps` by `rep`,
scanning left to right (the semantics of Python `str.replace`).  Structural
recursion on a fuel argument; since a match consumes at least the head
character, fuel equal to the input length always suffices and the
fuel-exhausted branch is unreachable from `pyReplace`. -/
def replaceAllChars (p0 : Char) (ps rep : List Char) : Nat → List Char → List Char
  | _, [] => []
  | 0, s => s
  | fuel + 1, c :: rest =>
    if c = p0 then
      match stripPre ps rest with
      | some remaining => rep ++ replaceAllChars p0 ps rep fuel remaining
      | none => c :: replaceAllChars p0 ps rep fuel rest
    else
      c :: replaceAllChars p0 ps rep fuel rest

/-- Python `s.replace(pat, rep)` for a non-empty pattern (the only patterns
this system uses are `"+00:00"` and `"Z"`; Python's behaviour on an empty
pattern — interleaving `rep` everywhere — is outside the model and mapped
to the identity). -/
def pyReplace (s pat rep : String) : String :=
  match pat.data with
  | [] => s
  | p0 :: ps => String.mk (replaceAllChars p0 ps rep.data s.data.length s.data)

/-- Python `s.endswith(suf)`. -/
def pyEndsWith (s suf : String) : Bool :=
  s.data.drop (s.data.length - suf.data.length) == suf.data

/-! ## Canonical value serialization (`PaginationCursor.encode`, value step)

`encode` converts each value to a string before JSON serialization:
datetimes via `isoformat()` with a trailing `+00:00` rewritten to `Z`
(`str.replace`, so all occurrences — only the suffix can occur in isoformat
output), everything else via `str(...)`. -/

/-- The canonical string form `encode` gives a single value. -/
def canonicalValue : PyValue → String
  | .dt d =>
    let iso := d.isoformat
    if pyEndsWith iso "+00:00" then pyReplace iso "+00:00" "Z" else iso
  | .pyNone => "None"
  | .str s => s
  | .int n => toString n

/-! ## JSON (`json.dumps(…, sort_keys=True)` / `json.loads`)

Modelled for flat objects with string values, the only payloads the codec
produces; `json.dumps` default separators `", "` and `": "` are used. -/

/-- JSON string-character escaping on the modelled fragment: `"` and `\`
get a backslash escape, every other modelled character stands for itself. -/
def jsonEscChar (c : Char) : List Char :=
  if c = '"' ∨ c = '\\' then ['\\', c] else [c]

/-- Escapes a whole string body. -/
def jsonEscape (s : List Char) : List Char :=
  s.foldr (fun c acc => jsonEscChar c ++ acc) []

/-- One `"key": "value"` member. -/
def jsonMemberChars (kv : String × String) : List Char :=
  '"' :: jsonEscape kv.1.data ++ '"' :: ':' :: ' ' :: '"' :: jsonEscape kv.2.data ++ ['"']

/-- The members of an object, separated by `", "`. -/
def jsonMembersChars : List (String × String) → List Char
  | [] => []
  | [kv] => jsonMemberChars kv
  | kv :: rest => jsonMemberChars kv ++ ',' :: ' ' :: jsonMembersChars rest

/-- Strict lexicographic comparison of character lists by code point —
Python's `<` on strings. -/
def listLexLT : List Char → List Char → Bool
  | [], [] => false
  | [], _ :: _ => true
  | _ :: _, [] => false
  | a :: as, b :: bs => if a = b then listLexLT as bs else decide (a < b)

/-- Python `a < b` on strings. -/
def pyStrLT (a b : String) : Bool := listLexLT a.data b.data

/-- Python `a <= b` on strings (total order: not `b < a`). -/
def pyStrLE (a b : String) : Bool := !(pyStrLT b a)

theorem listLexLT_irrefl (l : List Char) : listLexLT l l = false := by
  induction l with
  | nil => rfl
  | cons a as ih => simp [listLexLT, ih]

theorem listLexLT_trans {a b c : List Char} (h1 : listLexLT a b = true)
    (h2 : listLexLT b c = true) : listLexLT a c = true := by
  induction a generalizing b c with
  | nil =>
    cases b with
    | nil => exact absurd h1 (by simp [listLexLT])
    | cons y ys =>
      cases c with
      | nil => exact absurd h2 (by simp [listLexLT])
      | cons z zs => rfl
  | cons x xs ih =>
    cases b with
    | nil => exact absurd h1 (by simp [listLexLT])
    | cons y ys =>
      cases c with
      | nil => exact absurd h2 (by simp [listLexLT])
      | cons z zs =>
        simp only [listLexLT] at h1 h2 ⊢
        by_cases hxy : x = y
        · subst hxy
          rw [if_pos rfl] at h1
          by_cases hyz : x = z
          · subst hyz
            rw [if_pos rfl] at h2
            rw [if_pos rfl]
            exact ih h1 h2
          · rw [if_neg hyz] at h2 ⊢
            exact h2
        · rw [if_neg hxy] at h1
          by_cases hyz : y = z
          · subst hyz
            rw [if_neg hxy]
            exact h1
          · rw [if_neg hyz] at h2
            have hlt : x < z :=
              lt_trans (of_decide_eq_true h1) (of_decide_eq_true h2)
            rw [if_neg (ne_of_lt hlt)]
            exact decide_eq_true hlt

theorem listLexLT_asymm {a b : List Char} (h : listLexLT a b = true) :
    listLexLT b a = false := by
  induction a generalizing b with
  | nil =>
    cases b with
    | nil => exact absurd h (by simp [listLexLT])
    | cons y ys => rfl
  | cons x xs ih =>
    cases b with
    | nil => exact absurd h (by simp [listLexLT])
    | cons y ys =>
      simp only [listLexLT] at h ⊢
      by_cases hxy : x = y
      · subst hxy
        rw [if_pos rfl] at h
        rw [if_pos rfl]
        exact ih h
      · rw [if_neg hxy] at h
        have hlt : x < y := of_decide_eq_true h
        rw [if_neg (Ne.symm hxy)]
        exact decide_eq_false (not_lt_of_gt hlt)

theorem listLexLT_connex {a b : List Char} (h : listLexLT a b = false) :
    a = b ∨ listLexLT b a = true := by
  induction a generalizing b with
  | nil =>
    cases b with
    | nil => exact Or.inl rfl
    | cons y ys => exact absurd h (by simp [listLexLT])
  | cons x xs ih =>
    cases b with
    | nil => exact Or.inr rfl
    | cons y ys =>
      simp only [listLexLT] at h ⊢
      by_cases hxy : x = y
      · subst hxy
        rw [if_pos rfl] at h
        rcases ih h with rfl | hgt
        · exact Or.inl rfl
        · rw [if_pos rfl]
          exact Or.inr hgt
      · rw [if_neg hxy] at h
        have hnlt : ¬x < y := of_decide_eq_false h
        have hlt : y < x := lt_of_le_of_ne (le_of_not_lt hnlt) (Ne.symm hxy)
        rw [if_neg (Ne.symm hxy)]
        exact Or.inr (decide_eq_true hlt)

/-- Key order used by `sort_keys=True` (Python's string order). -/
def keyLE (a b : String × String) : Prop := pyStrLE a.1 b.1 = true

instance : DecidableRel keyLE := fun a b =>
  inferInstanceAs (Decidable (pyStrLE a.1 b.1 = true))

instance : IsTotal (String × String) keyLE :=
  ⟨fun a b => by
    unfold keyLE pyStrLE
    simp only [Bool.not_eq_true']
    by_cases h : pyStrLT b.1 a.1 = true
    · exact Or.inr (listLexLT_asymm h)
    · exact Or.inl (Bool.eq_false_iff.mpr h)⟩

instance : IsTrans (String × String) keyLE :=
  ⟨fun a b c h1 h2 => by
    unfold keyLE pyStrLE at h1 h2 ⊢
    simp only [Bool.not_eq_true'] at h1 h2 ⊢
    unfold pyStrLT at h1 h2 ⊢
    rw [Bool.eq_false_iff]
    intro hca
    rcases listLexLT_connex h1 with heq | hab
    · rw [heq] at h2
      exact absurd hca (Bool.eq_false_iff.mp h2)
    · exact absurd (listLexLT_trans hca hab) (Bool.eq_false_iff.mp h2)⟩

/-- The sorted arrangement of the members (unique keys make the order
produced by Python's `sorted` unambiguous). -/
def sortPairs (l : List (String × String)) : List (String × String) :=
  List.insertionSort keyLE l

/-- `json.dumps(d, sort_keys=True)` on a flat string-valued object. -/
def jsonDumpsSorted (l : List (String × String)) : String :=
  String.mk ('{' :: jsonMembersChars (sortPairs l) ++ ['}'])

/-- JSON insignificant whitespace. -/
def jsonWs (c : Char) : Bool := c = ' ' ∨ c = '\t' ∨ c = '\n' ∨ c = '\r'

/-- Skips insignificant whitespace. -/
def skipWs (s : List Char) : List Char := s.dropWhile jsonWs

/-- Parses the body of a string literal after its opening quote, up to and
including the closing quote, understanding the `\"` and `\\` escapes of the
modelled fragment. -/
def parseStringBody : List Char → Option (List Char × List Char)
  | [] => none
  | c :: rest =>
    if c = '"' then some ([], rest)
    else if c = '\\' then
      match rest with
      | [] => none
      | e :: rest2 =>
        if e = '"' ∨ e = '\\' then
          match parseStringBody rest2 with
          | some (cs, r) => some (e :: cs, r)
          | none => none
        else none
    else
      match parseStringBody rest with
      | some (cs, r) => some (c :: cs, r)
      | none => none

/-- Parses one `"key": "value"` member. -/
def parseMember (s : List Char) : Option ((String × String) × List Char) :=
  match s with
  | '"' :: rest =>
    match parseStringBody rest with
    | some (k, rest1) =>
      match skipWs rest1 with
      | ':' :: rest2 =>
        match skipWs rest2 with
        | '"' :: rest3 =>
          match parseStringBody rest3 with
          | some (v, rest4) => some ((String.mk k, String.mk v), rest4)
          | none => none
        | _ => none
      | _ => none
    | none => none
  | _ => none

/-- Parses a comma-separated member list (fuel decreases once per member;
callers supply fuel at least the input length, which any member exceeds). -/
def parseMembersF : Nat → List Char → Option (List (String × String) × List Char)
  | 0, _ => none
  | fuel + 1, s =>
    match parseMember s with
    | some (kv, rest) =>
      match skipWs rest with
      | ',' :: rest2 =>
        match parseMembersF fuel (skipWs rest2) with
        | some (l, r) => some (kv :: l, r)
        | none => none
      | rest1 => some ([kv], rest1)
    | none => none

/-- Python dict construction from parsed members: first occurrence keeps
its position, a duplicate key overwrites the stored value (`json.loads`
builds the object dict this way). -/
def upsertPair (acc : List (String × String)) (kv : String × String) :
    List (String × String) :=
  if acc.any (fun p => p.1 == kv.1) then
    acc.map (fun p => if p.1 == kv.1 then (p.1, kv.2) else p)
  else acc ++ [kv]

/-- Folds the parsed members into a dict. -/
def dictOfPairs (l : List (String × String)) : List (String × String) :=
  l.foldl upsertPair []

/-- `json.loads` on the modelled fragment: a flat object whose values are
string literals, surrounded by optional whitespace; anything else is a
parse failure (`json.loads` would raise `JSONDecodeError` on every input the
fragment rejects that matters here, in particular on non-JSON text and on
the empty string). -/
def jsonLoadsObj (s : String) : Option (List (String × String)) :=
  match skipWs s.data with
  | '{' :: rest =>
    match skipWs rest with
    | '}' :: rest2 => if skipWs rest2 = [] then some [] else none
    | rest1 =>
      match parseMembersF (rest1.length + 1) rest1 with
      | some (l, rest2) =>
        match rest2 with
        | '}' :: rest3 => if skipWs rest3 = [] then some (dictOfPairs l) else none
        | _ => none
      | none => none
  | _ => none

/-! ## Base64 (`base64.b64encode` / `base64.b64decode`)

Standard alphabet; bytes are `Nat`s below 256. `b64decode` models the
CPython default (`validate=False`): characters outside the alphabet are
discarded before decoding, then the remaining length must be a multiple of
four; `=` padding is accepted only at the end of the final group. -/

/-- The standard base64 alphabet. -/
def b64Alphabet : List Char :=
  "ABCDEFGHIJKLMNOPQRSTUVWXYZabcdefghijklmnopqrstuvwxyz0123456789+/".data

/-- The character for a 6-bit group. -/
def encB64Char (n : Nat) : Char := b64Alphabet.getD n '?'

/-- The 6-bit value of an alphabet character. -/
def decB64Char (c : Char) : Option Nat := List.findIdx? (fun a => a == c) b64Alphabet

/-- Encodes a byte list, three bytes at a time, padding the final group. -/
def b64encodeBytes : List Nat → List Char
  | [] => []
  | [b1] =>
    let n := b1 * 65536
    [encB64Char (n / 262144 % 64), encB64Char (n / 4096 % 64), '=', '=']
  | [b1, b2] =>
    let n := b1 * 65536 + b2 * 256
    [encB64Char (n / 262144 % 64), encB64Char (n / 4096 % 64),
      encB64Char (n / 64 % 64), '=']
  | b1 :: b2 :: b3 :: rest =>
    let n := b1 * 65536 + b2 * 256 + b3
    encB64Char (n / 262144 % 64) :: encB64Char (n / 4096 % 64) ::
      encB64Char (n / 64 % 64) :: encB64Char (n % 64) :: b64encodeBytes rest

/-- Keeps the characters `b64decode` looks at: alphabet characters and
padding; everything else is discarded (CPython `validate=False`). -/
def b64Filter (s : List Char) : List Char :=
  s.filter (fun c => (decB64Char c).isSome || c == '=')

/-- Decodes filtered input in groups of four, rejecting a trailing group
that is not a multiple of four and padding anywhere but at the end. -/
def b64decodeGroups : List Char → Option (List Nat)
  | [] => some []
  | c1 :: c2 :: c3 :: c4 :: rest =>
    match decB64Char c1, decB64Char c2 with
    | some d1, some d2 =>
      if c3 = '=' then
        if c4 = '=' ∧ rest = [] then
          some [(d1 * 262144 + d2 * 4096) / 65536]
        else none
      else
        match decB64Char c3 with
        | some d3 =>
          if c4 = '=' then
            if rest = [] then
              some [(d1 * 262144 + d2 * 4096 + d3 * 64) / 65536,
                (d1 * 262144 + d2 * 4096 + d3 * 64) / 256 % 256]
            else none
          else
            match decB64Char c4 with
            | some d4 =>
              match b64decodeGroups rest with
              | some bs =>
                let m := d1 * 262144 + d2 * 4096 + d3 * 64 + d4
                some (m / 65536 :: m / 256 % 256 :: m % 256 :: bs)
              | none => none
            | none => none
        | none => none
    | _, _ => none
  | _ => none

/-- `base64.b64decode(s).`: discard foreign characters, then decode. -/
def b64decodeStr (s : String) : Option (List Nat) :=
  b64decodeGroups (b64Filter s.data)

/-- `str.encode()` on the ASCII fragment of UTF-8. -/
def strToBytes (s : String) : List Nat := s.data.map Char.toNat

/-- `bytes.decode()` on the ASCII fragment of UTF-8 (non-ASCII bytes are
outside the modelled fragment and rejected). -/
def bytesToAscii (bs : List Nat) : Option String :=
  if bs.all (fun b => b < 128) then some (String.mk (bs.map Char.ofNat)) else none

/-! ## `datetime.fromisoformat` (modelled fragment)

The query builder re-parses cursor timestamps with
`datetime.fromisoformat` after rewriting a trailing `Z` to `+00:00`.  The
model parses the canonical grammar the codec emits —
`YYYY-MM-DD[THH:MM[:SS[.fff|.ffffff]]][+00:00]` (a space is also accepted
as date/time separator) — with Python's calendar validity checks; offsets
other than `+00:00` are outside the fragment and rejected. -/

/-- Reads exactly `n` decimal digits. -/
def readFixedNat : Nat → Nat → List Char → Option (Nat × List Char)
  | 0, acc, s => some (acc, s)
  | n + 1, acc, s =>
    match s with
    | c :: rest =>
      if c.isDigit then readFixedNat n (acc * 10 + (c.toNat - 48)) rest else none
    | [] => none

/-- Consumes one expected character. -/
def expectChar (c : Char) : List Char → Option (List Char)
  | x :: rest => if x = c then some rest else none
  | [] => none

/-- Days in a month of the proleptic Gregorian calendar. -/
def daysInMonth (year month : Nat) : Nat :=
  if month = 2 then
    if year % 4 = 0 ∧ (year % 100 ≠ 0 ∨ year % 400 = 0) then 29 else 28
  else if month = 4 ∨ month = 6 ∨ month = 9 ∨ month = 11 then 30 else 31

/-- Parses the optional fractional-seconds part (3 or 6 digits). -/
def parseFraction : List Char → Option (Nat × List Char)
  | '.' :: rest =>
    match readFixedNat 6 0 rest with
    | some (us, r) => some (us, r)
    | none =>
      match readFixedNat 3 0 rest with
      | some (ms, r) => some (ms * 1000, r)
      | none => none
  | s => some (0, s)

/-- Parses the optional time-of-day part. -/
def parseTimePart : List Char → Option (Nat × Nat × Nat × Nat × List Char)
  | [] => some (0, 0, 0, 0, [])
  | sep :: rest =>
    if sep = 'T' ∨ sep = ' ' then
      match readFixedNat 2 0 rest with
      | some (hh, r1) =>
        match expectChar ':' r1 with
        | some r2 =>
          match readFixedNat 2 0 r2 with
          | some (mi, r3) =>
            match expectChar ':' r3 with
            | some r4 =>
              match readFixedNat 2 0 r4 with
              | some (ss, r5) =>
                match parseFraction r5 with
                | some (us, r6) => some (hh, mi, ss, us, r6)
                | none => none
              | none => none
            | none => some (hh, mi, 0, 0, r3)
          | none => none
        | none => none
      | none => none
    else none

/-- `datetime.fromisoformat` on the modelled fragment. -/
def fromisoformat (s : String) : Option PyDateTime :=
  match readFixedNat 4 0 s.data with
  | some (y, r1) =>
    match expectChar '-' r1 with
    | some r2 =>
      match readFixedNat 2 0 r2 with
      | some (mo, r3) =>
        match expectChar '-' r3 with
        | some r4 =>
          match readFixedNat 2 0 r4 with
          | some (dd, r5) =>
            match parseTimePart r5 with
            | some (hh, mi, ss, us, r6) =>
              let tz :=
                match r6 with
                | [] => some false
                | '+' :: '0' :: '0' :: ':' :: '0' :: '0' :: [] => some true
                | _ => none
              match tz with
              | some utc =>
                if 1 ≤ y ∧ y ≤ 9999 ∧ 1 ≤ mo ∧ mo ≤ 12 ∧ 1 ≤ dd ∧
                    dd ≤ daysInMonth y mo ∧ hh ≤ 23 ∧ mi ≤ 59 ∧ ss ≤ 59 then
                  some ⟨y, mo, dd, hh, mi, ss, us, utc⟩
                else none
              | none => none
            | none => none
          | none => none
        | none => none
      | none => none
    | none => none
  | none => none

/-! ## Exceptions (`app/utils/exceptions.py`)

The application defines `NewsAPIException` subclasses; the pagination core
raises only `InvalidCursorException`, from both the encode and the decode
failure handlers. -/

/-- The application exception hierarchy relevant to the pagination core. -/
inductive NewsAPIException where
  | newsNotFound (message : String)
  | invalidCursor (message : String)
  | databaseConnection (message : String)
  | rateLimitExceeded (message : String)
deriving DecidableEq, Repr

/-- The Python class name of an exception value. -/
def NewsAPIException.className : NewsAPIException → String
  | .newsNotFound _ => "NewsNotFoundException"
  | .invalidCursor _ => "InvalidCursorException"
  | .databaseConnection _ => "DatabaseConnectionException"
  | .rateLimitExceeded _ => "RateLimitExceededException"

/-- The exception `encode`'s defensive `except` handler raises
(`raise InvalidCursorException(f"Failed to encode cursor: {str(e)}")`). -/
def encodeFailureExc (detail : String) : NewsAPIException :=
  .invalidCursor ("Failed to encode cursor: " ++ detail)

/-- The exception `decode`'s handler raises
(`raise InvalidCursorException(f"Invalid cursor format: {str(e)}")`). -/
def decodeFailureExc (detail : String) : NewsAPIException :=
  .invalidCursor ("Invalid cursor format: " ++ detail)

/-- Whether a result is an `InvalidCursorException` failure. -/
def isCursorInvalidError {α : Type} : Except NewsAPIException α → Bool
  | .error (.invalidCursor _) => true
  | _ => false

/-! ## The cursor codec (`PaginationCursor.encode` / `decode`) -/

/-- `PaginationCursor.encode`: canonicalize every value to a string,
serialize with sorted keys, base64-encode.  The Python body sits in a
`try`/`except` that re-raises any serialization failure as
`encodeFailureExc`; on the modelled value domain the body is total, so the
model is a plain function (`PaginationCursor.encodeE` exposes the
result-typed view of the same computation). -/
def PaginationCursor.encode (cursor_data : List (String × PyValue)) : String :=
  let serializable_data := cursor_data.map (fun kv => (kv.1, canonicalValue kv.2))
  let json_str := jsonDumpsSorted serializable_data
  String.mk (b64encodeBytes (strToBytes json_str))

/-- The `Except`-typed view of `encode` (the `try`/`except` boundary). -/
def PaginationCursor.encodeE (cursor_data : List (String × PyValue)) :
    Except NewsAPIException String :=
  .ok (PaginationCursor.encode cursor_data)

/-- `PaginationCursor.decode`: base64-decode, UTF-8 decode, JSON-parse;
every failure in the `try` body is re-raised as `decodeFailureExc`. -/
def PaginationCursor.decode (cursor : String) :
    Except NewsAPIException (List (String × String)) :=
  match b64decodeStr cursor with
  | none => .error (decodeFailureExc "binascii.Error")
  | some bytes =>
    match bytesToAscii bytes with
    | none => .error (decodeFailureExc "UnicodeDecodeError")
    | some decoded =>
      match jsonLoadsObj decoded with
      | none => .error (decodeFailureExc "JSONDecodeError")
      | some cursor_data => .ok cursor_data

/-! ## The cursor query builder (`PaginationCursor.build_cursor_query`) -/

/-- A single MongoDB comparison condition on a field. -/
inductive MCond where
  | eqC (v : PyValue)
  | ltC (v : PyValue)
  | gtC (v : PyValue)
deriving DecidableEq, Repr

/-- The query shapes `build_cursor_query` produces: the empty query `{}`
or an `$or` of conjunctive branches (each branch a list of
field/condition pairs). -/
inductive MQuery where
  | emptyQ
  | orQ (branches : List (List (String × MCond)))
deriving DecidableEq, Repr

/-- Python `dict.get(k)` on an association list (`None` when absent;
dict keys are unique, so the first match is the match). -/
def pyGet (d : List (String × PyValue)) (k : String) : PyValue :=
  match d.find? (fun p => p.1 == k) with
  | some p => p.2
  | none => .pyNone

/-- The designated temporal sort fields. -/
def temporalFields : List String := ["releasedAt", "createdAt", "updatedAt"]

/-- The lenient temporal re-parse inside `build_cursor_query`: for a
temporal sort field whose cursor value is a string, parse it back to a
datetime (rewriting `Z` to `+00:00` first when the string ends in `Z`);
a parse failure keeps the raw string (`except ValueError: pass`). -/
def reparseTemporal (sort_field : String) (cursor_value : PyValue) : PyValue :=
  if temporalFields.contains sort_field then
    match cursor_value with
    | .str s =>
      if pyEndsWith s "Z" then
        match fromisoformat (pyReplace s "Z" "+00:00") with
        | some d => .dt d
        | none => .str s
      else
        match fromisoformat s with
        | some d => .dt d
        | none => .str s
    | v => v
  else cursor_value

/-- `PaginationCursor.build_cursor_query`: empty dict, falsy `_id` or
`None` sort value give the empty query; otherwise the tie-break `$or`
disjunction for the requested direction (any order other than `"desc"`
takes the ascending branch). -/
def PaginationCursor.build_cursor_query (cursor_data : List (String × PyValue))
    (sort_field sort_order : String) : MQuery :=
  if cursor_data.isEmpty then .emptyQ
  else
    let cursor_id := pyGet cursor_data "_id"
    let cursor_value := pyGet cursor_data sort_field
    if cursor_id.falsy || cursor_value == PyValue.pyNone then .emptyQ
    else
      let cursor_value := reparseTemporal sort_field cursor_value
      if sort_order == "desc" then
        .orQ [[(sort_field, .ltC cursor_value)],
          [(sort_field, .eqC cursor_value), ("_id", .ltC cursor_id)]]
      else
        .orQ [[(sort_field, .gtC cursor_value)],
          [(sort_field, .eqC cursor_value), ("_id", .gtC cursor_id)]]

/-! ## Matching semantics for the produced queries

MongoDB comparison operators are type-bracketed: `$lt`/`$gt` compare
values of the same BSON type and match nothing across types; equality with
`null` also matches a missing field. -/

/-- Strict less-than on the modelled value domain. -/
def PyValue.mongoLT : PyValue → PyValue → Bool
  | .str a, .str b => pyStrLT a b
  | .int a, .int b => decide (a < b)
  | .dt a, .dt b => decide (a.key < b.key)
  | _, _ => false

/-- A stored document: its unique identifier (already string-converted by
the service layer) and its remaining fields. -/
structure MDoc where
  id : String
  fields : List (String × PyValue)
deriving DecidableEq, Repr

/-- Field projection used by query matching (`_id` resolves to the
identifier). -/
def MDoc.getV (d : MDoc) (k : String) : Option PyValue :=
  if k == "_id" then some (.str d.id)
  else (d.fields.find? (fun p => p.1 == k)).map Prod.snd

/-- `dict.get` view of a document field (`None` when absent), as used by
the page assembler. -/
def MDoc.getD (d : MDoc) (k : String) : PyValue :=
  match d.getV k with
  | some v => v
  | none => .pyNone

/-- Whether a document satisfies one field condition. -/
def condHolds (d : MDoc) : String × MCond → Bool
  | (k, .eqC v) =>
    match d.getV k with
    | some w => w == v
    | none => v == PyValue.pyNone
  | (k, .ltC v) =>
    match d.getV k with
    | some w => w.mongoLT v
    | none => false
  | (k, .gtC v) =>
    match d.getV k with
    | some w => v.mongoLT w
    | none => false

/-- Whether a document satisfies a produced query. -/
def matchesQuery (d : MDoc) : MQuery → Bool
  | .emptyQ => true
  | .orQ branches => branches.any (fun b => b.all (condHolds d))

/-! ## The page assembler (`create_pagination_response`) -/

/-- The pagination metadata dict. -/
structure PaginationMeta where
  next_cursor : Option String
  prev_cursor : Option String
  has_next : Bool
  has_prev : Bool
  limit : Nat
  returned : Nat
deriving DecidableEq, Repr

/-- `create_pagination_response`: over-fetch detection (`len(items) >
limit`), trim, and cursor derivation from the trimmed page's last/first
documents.  The Python function rebinds its local `items` to the slice
`items[:limit]`; the list object passed by the caller is never mutated. -/
def create_pagination_response (items : List MDoc) (limit : Nat)
    (sort_field : String) (has_prev : Bool) : PaginationMeta :=
  let has_next := decide (items.length > limit)
  let items := if has_next then items.take limit else items
  let next_cursor :=
    if has_next then
      match items.getLast? with
      | some last_item =>
        some (PaginationCursor.encode
          [("_id", .str last_item.id), (sort_field, last_item.getD sort_field)])
      | none => none
    else none
  let prev_cursor :=
    if has_prev then
      match items.head? with
      | some first_item =>
        some (PaginationCursor.encode
          [("_id", .str first_item.id), (sort_field, first_item.getD sort_field)])
      | none => none
    else none
  { next_cursor := next_cursor
    prev_cursor := prev_cursor
    has_next := has_next
    has_prev := has_prev
    limit := limit
    returned := items.length }

/-! ## Service layer (`cursor_service.py`, `news_service.py`) -/

/-- Python truthiness of an optional string (`bool(params.cursor)`). -/
def pyTruthyOptStr : Option String → Bool
  | none => false
  | some s => !s.data.isEmpty

/-- `CursorService.build_cursor_query`: a falsy cursor (absent or empty)
yields the empty query without decoding; otherwise decode — letting an
`InvalidCursorException` propagate — and build. -/
def CursorService.build_cursor_query (cursor : Option String)
    (sort_field sort_order : String) : Except NewsAPIException MQuery :=
  if !pyTruthyOptStr cursor then .ok .emptyQ
  else
    match cursor with
    | none => .ok .emptyQ
    | some c =>
      match PaginationCursor.decode c with
      | .error e => .error e
      | .ok cursor_data =>
        .ok (PaginationCursor.build_cursor_query
          (cursor_data.map (fun kv => (kv.1, PyValue.str kv.2))) sort_field sort_order)

/-- The request parameters of `GET /news` (`NewsQueryParams`); filter
fields are carried for completeness but only the pagination-relevant ones
affect the modelled outputs. -/
structure NewsQueryParams where
  from_date : Option PyDateTime := none
  to_date : Option PyDateTime := none
  source : Option String := none
  asset_slug : Option String := none
  keyword : Option String := none
  limit : Nat := 100
  cursor : Option String := none
  sort_by : String := "releasedAt"
  order : String := "desc"
deriving DecidableEq, Repr

/-- `NewsService.get_news_list`, with the document store as an external
collaborator: `fetched` stands for the list the driver returns for the
combined query with `limit(params.limit + 1)` (so callers guarantee
`fetched.length ≤ params.limit + 1`), identifiers already
string-converted.  The cursor query is built first (a decode failure
propagates), then the pagination metadata and the trimmed item list are
produced. -/
def NewsService.get_news_list (params : NewsQueryParams) (fetched : List MDoc) :
    Except NewsAPIException (List MDoc × PaginationMeta) :=
  match CursorService.build_cursor_query params.cursor params.sort_by params.order with
  | .error e => .error e
  | .ok _cursor_query =>
    let pagination := create_pagination_response fetched params.limit params.sort_by
      (pyTruthyOptStr params.cursor)
    let actual_items := fetched.take params.limit
    .ok (actual_items, pagination)

/-! ## The modelled JSON fragment

`jsonSafeChar` delimits the string fragment on which the JSON model is
exact: printable ASCII without `"` and `\` (which the model escapes like
`json.dumps` does).  Every value this system ever places in a cursor —
hexadecimal ObjectId strings and canonical ISO-8601 timestamps — lies in
the fragment. -/

/-- A character the modelled serializer emits verbatim. -/
def jsonSafeChar (c : Char) : Bool :=
  decide (32 ≤ c.toNat) && decide (c.toNat < 127) && !(c == '"') && !(c == '\\')

/-- A string inside the modelled fragment. -/
def jsonSafeStr (s : String) : Bool := s.data.all jsonSafeChar

/-- Request parameters with a supplied-but-empty cursor string
(`GET /news?cursor=`), used to probe `has_prev`. -/
def emptyCursorParams : NewsQueryParams := { cursor := some "" }

/-! ## Round-trip lemmas for the base64 model -/

theorem decB64Char_encB64Char : ∀ k, k < 64 → decB64Char (encB64Char k) = some k := by
  decide

theorem encB64Char_ne_pad : ∀ k, k < 64 → encB64Char k ≠ '=' := by
  decide


/-- Every character the encoder emits survives the decoder's filter. -/
theorem b64encode_good (bs : List Nat) :
    ∀ c ∈ b64encodeBytes bs, ((decB64Char c).isSome || c == '=') = true := by
  induction bs using b64encodeBytes.induct with
  | case1 =>
    intro c hc; simp [b64encodeBytes] at hc
  | case2 b1 =>
    intro c hc
    have h1 := decB64Char_encB64Char (b1 * 65536 / 262144 % 64) (Nat.mod_lt _ (by omega))
    have h2 := decB64Char_encB64Char (b1 * 65536 / 4096 % 64) (Nat.mod_lt _ (by omega))
    simp only [b64encodeBytes, List.mem_cons, List.not_mem_nil, or_false] at hc
    rcases hc with rfl | rfl | rfl | rfl <;> simp [h1, h2]
  | case3 b1 b2 =>
    intro c hc
    have h1 := decB64Char_encB64Char ((b1 * 65536 + b2 * 256) / 262144 % 64)
      (Nat.mod_lt _ (by omega))
    have h2 := decB64Char_encB64Char ((b1 * 65536 + b2 * 256) / 4096 % 64)
      (Nat.mod_lt _ (by omega))
    have h3 := decB64Char_encB64Char ((b1 * 65536 + b2 * 256) / 64 % 64)
      (Nat.mod_lt _ (by omega))
    simp only [b64encodeBytes, List.mem_cons, List.not_mem_nil, or_false] at hc
    rcases hc with rfl | rfl | rfl | rfl <;> simp [h1, h2, h3]
  | case4 b1 b2 b3 rest ih =>
    intro c hc
    have h1 := decB64Char_encB64Char ((b1 * 65536 + b2 * 256 + b3) / 262144 % 64)
      (Nat.mod_lt _ (by omega))
    have h2 := decB64Char_encB64Char ((b1 * 65536 + b2 * 256 + b3) / 4096 % 64)
      (Nat.mod_lt _ (by omega))
    have h3 := decB64Char_encB64Char ((b1 * 65536 + b2 * 256 + b3) / 64 % 64)
      (Nat.mod_lt _ (by omega))
    have h4 := decB64Char_encB64Char ((b1 * 65536 + b2 * 256 + b3) % 64)
      (Nat.mod_lt _ (by omega))
    simp only [b64encodeBytes, List.mem_cons] at hc
    rcases hc with rfl | rfl | rfl | rfl | hc
    · simp [h1]
    · simp [h2]
    · simp [h3]
    · simp [h4]
    · exact ih c hc

/-- The filter leaves encoder output untouched. -/
theorem b64Filter_encode (bs : List Nat) :
    b64Filter (b64encodeBytes bs) = b64encodeBytes bs :=
  List.filter_eq_self.mpr (b64encode_good bs)

/-- Decoding inverts encoding on byte lists. -/
theorem b64decodeGroups_encode (bs : List Nat) (hb : ∀ b ∈ bs, b < 256) :
    b64decodeGroups (b64encodeBytes bs) = some bs := by
  induction bs using b64encodeBytes.induct with
  | case1 => rfl
  | case2 b1 =>
    have hb1 : b1 < 256 := hb b1 (by simp)
    have h1 := decB64Char_encB64Char (b1 * 65536 / 262144 % 64) (Nat.mod_lt _ (by omega))
    have h2 := decB64Char_encB64Char (b1 * 65536 / 4096 % 64) (Nat.mod_lt _ (by omega))
    simp only [b64encodeBytes, b64decodeGroups, h1, h2]
    simp only [reduceIte, and_self, if_true, Option.some.injEq, List.cons.injEq, and_true]
    omega
  | case3 b1 b2 =>
    have hb1 : b1 < 256 := hb b1 (by simp)
    have hb2 : b2 < 256 := hb b2 (by simp)
    have h1 := decB64Char_encB64Char ((b1 * 65536 + b2 * 256) / 262144 % 64)
      (Nat.mod_lt _ (by omega))
    have h2 := decB64Char_encB64Char ((b1 * 65536 + b2 * 256) / 4096 % 64)
      (Nat.mod_lt _ (by omega))
    have h3 := decB64Char_encB64Char ((b1 * 65536 + b2 * 256) / 64 % 64)
      (Nat.mod_lt _ (by omega))
    have hne := encB64Char_ne_pad ((b1 * 65536 + b2 * 256) / 64 % 64)
      (Nat.mod_lt _ (by omega))
    simp only [b64encodeBytes, b64decodeGroups, h1, h2]
    rw [if_neg hne]
    simp only [h3, reduceIte, Option.some.injEq, List.cons.injEq, and_true]
    constructor <;> omega
  | case4 b1 b2 b3 rest ih =>
    have hb1 : b1 < 256 := hb b1 (by simp)
    have hb2 : b2 < 256 := hb b2 (by simp)
    have hb3 : b3 < 256 := hb b3 (by simp)
    have hrest : ∀ b ∈ rest, b < 256 := fun b hbb => hb b (by simp [hbb])
    have h1 := decB64Char_encB64Char ((b1 * 65536 + b2 * 256 + b3) / 262144 % 64)
      (Nat.mod_lt _ (by omega))
    have h2 := decB64Char_encB64Char ((b1 * 65536 + b2 * 256 + b3) / 4096 % 64)
      (Nat.mod_lt _ (by omega))
    have h3 := decB64Char_encB64Char ((b1 * 65536 + b2 * 256 + b3) / 64 % 64)
      (Nat.mod_lt _ (by omega))
    have h4 := decB64Char_encB64Char ((b1 * 65536 + b2 * 256 + b3) % 64)
      (Nat.mod_lt _ (by omega))
    have hne3 := encB64Char_ne_pad ((b1 * 65536 + b2 * 256 + b3) / 64 % 64)
      (Nat.mod_lt _ (by omega))
    have hne4 := encB64Char_ne_pad ((b1 * 65536 + b2 * 256 + b3) % 64)
      (Nat.mod_lt _ (by omega))
    simp only [b64encodeBytes, b64decodeGroups, h1, h2]
    rw [if_neg hne3]
    simp only [h3]
    rw [if_neg hne4]
    simp only [h4, ih hrest, Option.some.injEq, List.cons.injEq]
    refine ⟨by omega, by omega, by omega, trivial⟩

/-- `b64decode ∘ b64encode` is the identity on byte lists. -/
theorem b64decodeStr_encode (bs : List Nat) (hb : ∀ b ∈ bs, b < 256) :
    b64decodeStr (String.mk (b64encodeBytes bs)) = some bs := by
  show b64decodeGroups (b64Filter (b64encodeBytes bs)) = some bs
  rw [b64Filter_encode, b64decodeGroups_encode bs hb]

/-! ## Round-trip lemmas for the JSON model -/

theorem jsonSafeChar_spec {c : Char} (h : jsonSafeChar c = true) :
    32 ≤ c.toNat ∧ c.toNat < 127 ∧ c ≠ '"' ∧ c ≠ '\\' := by
  unfold jsonSafeChar at h
  simp only [Bool.and_eq_true, decide_eq_true_eq, Bool.not_eq_true',
    beq_eq_false_iff_ne] at h
  exact ⟨h.1.1.1, h.1.1.2, h.1.2, h.2⟩

theorem jsonEscape_safe (cs : List Char) (h : cs.all jsonSafeChar = true) :
    jsonEscape cs = cs := by
  induction cs with
  | nil => rfl
  | cons c rest ih =>
    simp only [List.all_cons, Bool.and_eq_true] at h
    obtain ⟨-, -, hq, hbs⟩ := jsonSafeChar_spec h.1
    show jsonEscChar c ++ jsonEscape rest = c :: rest
    rw [ih h.2]
    unfold jsonEscChar
    rw [if_neg (by tauto)]
    rfl

theorem bytesToAscii_strToBytes (s : String) (h : ∀ c ∈ s.data, c.toNat < 128) :
    bytesToAscii (strToBytes s) = some s := by
  have hall : (s.data.map Char.toNat).all (fun b => decide (b < 128)) = true := by
    rw [List.all_eq_true]
    intro b hb
    obtain ⟨c, hc, rfl⟩ := List.mem_map.mp hb
    simpa using h c hc
  unfold bytesToAscii strToBytes
  rw [if_pos hall]
  congr 1
  rw [List.map_map]
  have : List.map (Char.ofNat ∘ Char.toNat) s.data = List.map id s.data :=
    List.map_congr_left (fun c _ => Char.ofNat_toNat c)
  rw [this, List.map_id]

theorem parseStringBody_roundtrip (cs rest : List Char)
    (h : cs.all jsonSafeChar = true) :
    parseStringBody (cs ++ '"' :: rest) = some (cs, rest) := by
  induction cs with
  | nil =>
    rw [List.nil_append, parseStringBody.eq_def]
    simp
  | cons c cs ih =>
    simp only [List.all_cons, Bool.and_eq_true] at h
    obtain ⟨-, -, hq, hbs⟩ := jsonSafeChar_spec h.1
    rw [List.cons_append, parseStringBody.eq_def]
    simp only [if_neg hq, if_neg hbs, ih h.2]

theorem skipWs_not_ws {c : Char} (rest : List Char) (h : jsonWs c = false) :
    skipWs (c :: rest) = c :: rest := by
  simp [skipWs, List.dropWhile_cons, h]

theorem skipWs_space (rest : List Char) : skipWs (' ' :: rest) = skipWs rest := by
  simp [skipWs, List.dropWhile_cons, jsonWs]

theorem parseMember_roundtrip (k v : String) (rest : List Char)
    (hk : jsonSafeStr k = true) (hv : jsonSafeStr v = true) :
    parseMember (jsonMemberChars (k, v) ++ rest) = some ((k, v), rest) := by
  have shape : jsonMemberChars (k, v) ++ rest =
      '"' :: (k.data ++ '"' :: (':' :: ' ' :: '"' :: (v.data ++ '"' :: rest))) := by
    unfold jsonMemberChars
    rw [jsonEscape_safe k.data hk, jsonEscape_safe v.data hv]
    simp [List.append_assoc]
  rw [shape]
  rw [parseMember.eq_def]
  simp only []
  rw [parseStringBody_roundtrip k.data _ hk]
  simp only []
  rw [skipWs_not_ws _ (by decide)]
  simp only [skipWs_space]
  rw [skipWs_not_ws _ (by decide)]
  simp only []
  rw [parseStringBody_roundtrip v.data _ hv]

theorem jsonMembersChars_head (kv : String × String) (l : List (String × String)) :
    ∃ t, jsonMembersChars (kv :: l) = '"' :: t := by
  cases l with
  | nil => exact ⟨_, rfl⟩
  | cons b bs => exact ⟨_, rfl⟩

theorem parseMembersF_roundtrip (l : List (String × String)) (fuel : Nat)
    (t : List Char) (hne : l ≠ [])
    (hsafe : ∀ kv ∈ l, jsonSafeStr kv.1 = true ∧ jsonSafeStr kv.2 = true)
    (hfuel : l.length ≤ fuel) :
    parseMembersF fuel (jsonMembersChars l ++ '}' :: t) = some (l, '}' :: t) := by
  induction l generalizing fuel with
  | nil => exact absurd rfl hne
  | cons kv l' ih =>
    obtain ⟨f, rfl⟩ : ∃ f, fuel = f + 1 := by
      cases fuel with
      | zero => simp at hfuel
      | succ f => exact ⟨f, rfl⟩
    obtain ⟨hkv, hsafe'⟩ : _ ∧ ∀ kv ∈ l', jsonSafeStr kv.1 = true ∧ jsonSafeStr kv.2 = true :=
      ⟨hsafe kv (by simp), fun kv2 h2 => hsafe kv2 (by simp [h2])⟩
    cases l' with
    | nil =>
      show parseMembersF (f + 1) (jsonMemberChars kv ++ '}' :: t) = some ([kv], '}' :: t)
      rw [parseMembersF.eq_def]
      simp only []
      rw [parseMember_roundtrip kv.1 kv.2 _ hkv.1 hkv.2]
      simp only []
      rw [skipWs_not_ws _ (by decide)]
      rfl
    | cons kv2 l'' =>
      show parseMembersF (f + 1)
          ((jsonMemberChars kv ++ ',' :: ' ' :: jsonMembersChars (kv2 :: l'')) ++ '}' :: t) =
        some (kv :: kv2 :: l'', '}' :: t)
      rw [List.append_assoc, List.cons_append, List.cons_append]
      rw [parseMembersF.eq_def]
      simp only []
      rw [parseMember_roundtrip kv.1 kv.2 _ hkv.1 hkv.2]
      simp only []
      rw [skipWs_not_ws _ (by decide)]
      simp only [skipWs_space]
      obtain ⟨tail, htail⟩ := jsonMembersChars_head kv2 l''
      rw [htail, List.cons_append, skipWs_not_ws _ (by decide), ← List.cons_append, ← htail]
      rw [ih f (by simp) hsafe' (by simp at hfuel ⊢; omega)]

theorem jsonMembersChars_length (l : List (String × String)) :
    l.length ≤ (jsonMembersChars l).length := by
  induction l using jsonMembersChars.induct with
  | case1 => simp [jsonMembersChars]
  | case2 kv => simp [jsonMembersChars, jsonMemberChars]
  | case3 kv rest hne ih =>
    obtain ⟨kv2, l2, rfl⟩ :=
      List.exists_cons_of_ne_nil (fun habs => hne habs)
    show (kv :: kv2 :: l2).length ≤
      (jsonMemberChars kv ++ ',' :: ' ' :: jsonMembersChars (kv2 :: l2)).length
    simp only [List.length_cons, List.length_append] at ih ⊢
    omega

theorem foldl_upsertPair_append (l acc : List (String × String))
    (hnd : (l.map Prod.fst).Nodup)
    (hdisj : ∀ k ∈ acc.map Prod.fst, k ∉ l.map Prod.fst) :
    l.foldl upsertPair acc = acc ++ l := by
  induction l generalizing acc with
  | nil => simp
  | cons kv l2 ih =>
    simp only [List.map_cons, List.nodup_cons] at hnd
    have hnotin : kv.1 ∉ acc.map Prod.fst := fun hmem => hdisj kv.1 hmem (by simp)
    have hany : acc.any (fun p => p.1 == kv.1) = false := by
      rw [Bool.eq_false_iff]
      intro hcontra
      rw [List.any_eq_true] at hcontra
      obtain ⟨p, hp, hpeq⟩ := hcontra
      rw [beq_iff_eq] at hpeq
      exact hnotin (hpeq ▸ List.mem_map_of_mem Prod.fst hp)
    have hup : upsertPair acc kv = acc ++ [kv] := by
      unfold upsertPair
      rw [hany]
      exact if_neg (by simp)
    have hdisj2 : ∀ k ∈ (acc ++ [kv]).map Prod.fst, k ∉ l2.map Prod.fst := by
      intro kk hkk
      simp only [List.map_append, List.mem_append] at hkk
      rcases hkk with hkk | hkk
      · intro hmem
        exact hdisj kk hkk (by simp [hmem])
      · simp only [List.map_cons, List.map_nil, List.mem_singleton] at hkk
        subst hkk
        exact hnd.1
    rw [List.foldl_cons, hup, ih (acc ++ [kv]) hnd.2 hdisj2]
    simp

theorem dictOfPairs_nodup (l : List (String × String))
    (hnd : (l.map Prod.fst).Nodup) : dictOfPairs l = l := by
  unfold dictOfPairs
  rw [foldl_upsertPair_append l [] hnd (by simp)]
  simp

theorem jsonMemberChars_ascii (kv : String × String)
    (h1 : jsonSafeStr kv.1 = true) (h2 : jsonSafeStr kv.2 = true) :
    ∀ c ∈ jsonMemberChars kv, c.toNat < 128 := by
  intro c hc
  unfold jsonMemberChars at hc
  rw [jsonEscape_safe _ h1, jsonEscape_safe _ h2] at hc
  have hk : ∀ x ∈ kv.1.data, Char.toNat x < 128 := fun x hx =>
    Nat.lt_of_lt_of_le (jsonSafeChar_spec (List.all_eq_true.mp h1 x hx)).2.1 (by omega)
  have hv : ∀ x ∈ kv.2.data, Char.toNat x < 128 := fun x hx =>
    Nat.lt_of_lt_of_le (jsonSafeChar_spec (List.all_eq_true.mp h2 x hx)).2.1 (by omega)
  rcases List.mem_append.mp hc with hc | hc
  · rcases List.mem_append.mp hc with hc | hc
    · rcases List.mem_cons.mp hc with rfl | hc
      · decide
      · exact hk c hc
    · rcases List.mem_cons.mp hc with rfl | hc
      · decide
      rcases List.mem_cons.mp hc with rfl | hc
      · decide
      rcases List.mem_cons.mp hc with rfl | hc
      · decide
      rcases List.mem_cons.mp hc with rfl | hc
      · decide
      · exact hv c hc
  · rw [List.mem_singleton] at hc
    subst hc
    decide

theorem jsonMembersChars_ascii (l : List (String × String))
    (hsafe : ∀ kv ∈ l, jsonSafeStr kv.1 = true ∧ jsonSafeStr kv.2 = true) :
    ∀ c ∈ jsonMembersChars l, c.toNat < 128 := by
  induction l using jsonMembersChars.induct with
  | case1 => intro c hc; simp [jsonMembersChars] at hc
  | case2 kv =>
    intro c hc
    exact jsonMemberChars_ascii kv (hsafe kv (by simp)).1 (hsafe kv (by simp)).2 c hc
  | case3 kv rest hne ih =>
    obtain ⟨kv2, l2, rfl⟩ := List.exists_cons_of_ne_nil (fun habs => hne habs)
    intro c hc
    have hstep : jsonMembersChars (kv :: kv2 :: l2) =
        jsonMemberChars kv ++ ',' :: ' ' :: jsonMembersChars (kv2 :: l2) := rfl
    rw [hstep] at hc
    have ih2 := ih (fun kv3 h3 => hsafe kv3 (by simp [h3]))
    rcases List.mem_append.mp hc with hc | hc
    · exact jsonMemberChars_ascii kv (hsafe kv (by simp)).1 (hsafe kv (by simp)).2 c hc
    rcases List.mem_cons.mp hc with rfl | hc
    · decide
    rcases List.mem_cons.mp hc with rfl | hc
    · decide
    · exact ih2 c hc

theorem jsonLoadsObj_roundtrip (l : List (String × String)) (hne : l ≠ [])
    (hsafe : ∀ kv ∈ l, jsonSafeStr kv.1 = true ∧ jsonSafeStr kv.2 = true) :
    jsonLoadsObj (String.mk ('{' :: jsonMembersChars l ++ ['}'])) =
      some (dictOfPairs l) := by
  obtain ⟨kv0, l0, rfl⟩ := List.exists_cons_of_ne_nil hne
  obtain ⟨t0, ht0⟩ := jsonMembersChars_head kv0 l0
  have hms2 : jsonMembersChars (kv0 :: l0) ++ ['}'] = '"' :: (t0 ++ ['}']) := by
    rw [ht0]
    exact List.cons_append _ _ _
  have hsk : skipWs (jsonMembersChars (kv0 :: l0) ++ ['}']) =
      jsonMembersChars (kv0 :: l0) ++ ['}'] := by
    rw [hms2, @skipWs_not_ws '"' _ (by decide)]
  have hfuel : (kv0 :: l0).length ≤ (jsonMembersChars (kv0 :: l0) ++ ['}']).length + 1 := by
    have := jsonMembersChars_length (kv0 :: l0)
    simp only [List.length_append]
    omega
  have hrt := parseMembersF_roundtrip (kv0 :: l0)
    ((jsonMembersChars (kv0 :: l0) ++ ['}']).length + 1) [] hne hsafe hfuel
  unfold jsonLoadsObj
  simp only [show (String.mk ('{' :: jsonMembersChars (kv0 :: l0) ++ ['}'])).data
      = '{' :: jsonMembersChars (kv0 :: l0) ++ ['}'] from rfl]
  rw [List.cons_append, @skipWs_not_ws '{' _ (by decide)]
  simp only []
  rw [hsk, hms2]
  show (match parseMembersF (('"' :: (t0 ++ ['}'])).length + 1) ('"' :: (t0 ++ ['}'])) with
    | some (l, rest2) =>
      match rest2 with
      | '}' :: rest3 => if skipWs rest3 = [] then some (dictOfPairs l) else none
      | _ => none
    | none => none) = some (dictOfPairs (kv0 :: l0))
  rw [← hms2, hrt]
  rfl

/-- The canonicalized payload of a cursor mapping. -/
def canonicalPairs (m : List (String × PyValue)) : List (String × String) :=
  m.map (fun kv => (kv.1, canonicalValue kv.2))

theorem canonicalPairs_fst (m : List (String × PyValue)) :
    (canonicalPairs m).map Prod.fst = m.map Prod.fst := by
  unfold canonicalPairs
  rw [List.map_map]
  rfl

theorem decode_encode (m : List (String × PyValue)) (hne : m ≠ [])
    (hnd : (m.map Prod.fst).Nodup)
    (hsafe : ∀ kv ∈ m, jsonSafeStr kv.1 = true ∧ jsonSafeStr (canonicalValue kv.2) = true) :
    PaginationCursor.decode (PaginationCursor.encode m) =
      Except.ok (sortPairs (canonicalPairs m)) := by
  have hperm : (sortPairs (canonicalPairs m)).Perm (canonicalPairs m) :=
    List.perm_insertionSort keyLE (canonicalPairs m)
  have hsafe2 : ∀ kv ∈ sortPairs (canonicalPairs m),
      jsonSafeStr kv.1 = true ∧ jsonSafeStr kv.2 = true := by
    intro kv hkv
    obtain ⟨kv0, h0, rfl⟩ := List.mem_map.mp (hperm.mem_iff.mp hkv)
    exact ⟨(hsafe kv0 h0).1, (hsafe kv0 h0).2⟩
  have hsortne : sortPairs (canonicalPairs m) ≠ [] := by
    intro habs
    apply hne
    have hlen := hperm.length_eq
    rw [habs] at hlen
    have hcnil : canonicalPairs m = [] := List.eq_nil_of_length_eq_zero hlen.symm
    unfold canonicalPairs at hcnil
    exact List.map_eq_nil_iff.mp hcnil
  have hndsort : ((sortPairs (canonicalPairs m)).map Prod.fst).Nodup := by
    have h1 : ((canonicalPairs m).map Prod.fst).Nodup := by
      rw [canonicalPairs_fst]; exact hnd
    exact h1.perm (hperm.map Prod.fst).symm
  have hascii : ∀ c ∈ ('{' :: jsonMembersChars (sortPairs (canonicalPairs m)) ++ ['}']),
      c.toNat < 128 := by
    intro c hc
    rcases List.mem_append.mp hc with hc | hc
    · rcases List.mem_cons.mp hc with rfl | hc
      · decide
      · exact jsonMembersChars_ascii _ hsafe2 c hc
    · rw [List.mem_singleton] at hc
      subst hc
      decide
  have hjson : jsonDumpsSorted (canonicalPairs m) =
      String.mk ('{' :: jsonMembersChars (sortPairs (canonicalPairs m)) ++ ['}']) := rfl
  have hbytes : ∀ b ∈ strToBytes (jsonDumpsSorted (canonicalPairs m)), b < 256 := by
    intro b hb
    obtain ⟨c, hc, rfl⟩ := List.mem_map.mp hb
    rw [hjson] at hc
    exact Nat.lt_of_lt_of_le (hascii c hc) (by omega)
  show PaginationCursor.decode
      (String.mk (b64encodeBytes (strToBytes (jsonDumpsSorted (canonicalPairs m))))) = _
  unfold PaginationCursor.decode
  show (match b64decodeStr (String.mk (b64encodeBytes
      (strToBytes (jsonDumpsSorted (canonicalPairs m))))) with
    | none => Except.error (decodeFailureExc "binascii.Error")
    | some bytes =>
      match bytesToAscii bytes with
      | none => Except.error (decodeFailureExc "UnicodeDecodeError")
      | some decoded =>
        match jsonLoadsObj decoded with
        | none => Except.error (decodeFailureExc "JSONDecodeError")
        | some cursor_data => Except.ok cursor_data) = _
  rw [b64decodeStr_encode _ hbytes]
  show (match bytesToAscii (strToBytes (jsonDumpsSorted (canonicalPairs m))) with
    | none => Except.error (decodeFailureExc "UnicodeDecodeError")
    | some decoded =>
      match jsonLoadsObj decoded with
      | none => Except.error (decodeFailureExc "JSONDecodeError")
      | some cursor_data => Except.ok cursor_data) =
    Except.ok (sortPairs (canonicalPairs m))
  rw [bytesToAscii_strToBytes _ (fun c hc => by rw [hjson] at hc; exact hascii c hc)]
  show (match jsonLoadsObj (jsonDumpsSorted (canonicalPairs m)) with
    | none => Except.error (decodeFailureExc "JSONDecodeError")
    | some cursor_data => Except.ok cursor_data) =
    Except.ok (sortPairs (canonicalPairs m))
  rw [hjson, jsonLoadsObj_roundtrip _ hsortne hsafe2, dictOfPairs_nodup _ hndsort]

/-! ## Lemmas about the matching semantics and the page assembler -/

theorem mongoLT_irrefl (v : PyValue) : v.mongoLT v = false := by
  cases v with
  | pyNone => rfl
  | str s => exact listLexLT_irrefl s.data
  | int n => exact decide_eq_false (lt_irrefl n)
  | dt d => exact decide_eq_false (lt_irrefl d.key)

theorem mongoLT_str_asymm {a b : String} (h : pyStrLT a b = true) :
    PyValue.mongoLT (.str b) (.str a) = false :=
  listLexLT_asymm h

theorem create_pagination_response_has_next (items : List MDoc) (limit : Nat)
    (sf : String) (hp : Bool) :
    (create_pagination_response items limit sf hp).has_next =
      decide (items.length > limit) := rfl

theorem create_pagination_response_has_prev (items : List MDoc) (limit : Nat)
    (sf : String) (hp : Bool) :
    (create_pagination_response items limit sf hp).has_prev = hp := rfl

theorem create_pagination_response_limit (items : List MDoc) (limit : Nat)
    (sf : String) (hp : Bool) :
    (create_pagination_response items limit sf hp).limit = limit := rfl

/-- The trimmed page is `items.take limit`, whether or not an overflow row
was present. -/
theorem trim_eq_take (items : List MDoc) (limit : Nat) :
    (if decide (items.length > limit) = true then items.take limit else items) =
      items.take limit := by
  by_cases h : items.length > limit
  · rw [if_pos (decide_eq_true h)]
  · rw [if_neg (by simpa using h), List.take_of_length_le (by omega)]

theorem create_pagination_response_returned (items : List MDoc) (limit : Nat)
    (sf : String) (hp : Bool) :
    (create_pagination_response items limit sf hp).returned =
      (items.take limit).length := by
  unfold create_pagination_response
  simp only [trim_eq_take]

theorem create_pagination_response_next_cursor (items : List MDoc) (limit : Nat)
    (sf : String) (hp : Bool) :
    (create_pagination_response items limit sf hp).next_cursor =
      if items.length > limit then
        (items.take limit).getLast?.map (fun last_item =>
          PaginationCursor.encode
            [("_id", .str last_item.id), (sf, last_item.getD sf)])
      else none := by
  unfold create_pagination_response
  simp only [trim_eq_take]
  by_cases h : items.length > limit
  · rw [if_pos (decide_eq_true h), if_pos h]
    cases (items.take limit).getLast? <;> rfl
  · rw [if_neg (by simpa using h), if_neg h]

theorem create_pagination_response_prev_cursor (items : List MDoc) (limit : Nat)
    (sf : String) (hp : Bool) :
    (create_pagination_response items limit sf hp).prev_cursor =
      if hp then
        (items.take limit).head?.map (fun first_item =>
          PaginationCursor.encode
            [("_id", .str first_item.id), (sf, first_item.getD sf)])
      else none := by
  unfold create_pagination_response
  simp only [trim_eq_take]
  by_cases h : hp
  · subst h
    rw [if_pos rfl, if_pos rfl]
    cases (items.take limit).head? <;> rfl
  · have hfalse : hp = false := by simpa using h
    subst hfalse
    rfl

/-- Inversion of `get_news_list` on success. -/
theorem get_news_list_ok {params : NewsQueryParams} {fetched items : List MDoc}
    {pag : PaginationMeta}
    (h : NewsService.get_news_list params fetched = .ok (items, pag)) :
    items = fetched.take params.limit ∧
      pag = create_pagination_response fetched params.limit params.sort_by
        (pyTruthyOptStr params.cursor) := by
  unfold NewsService.get_news_list at h
  cases hcq : CursorService.build_cursor_query params.cursor params.sort_by params.order with
  | error e => rw [hcq] at h; cases h
  | ok q =>
    rw [hcq] at h
    simp only [Except.ok.injEq, Prod.mk.injEq] at h
    exact ⟨h.1.symm, h.2.symm⟩

/-! ## Claim theorems -/

theorem string_eq_of_data_eq {a b : String} (h : a.data = b.data) : a = b := by
  cases a
  cases b
  exact congrArg String.mk h

/-- C1: cursor codec round-trip — for every field mapping holding an
identifier and a sort-field value (with distinct keys, and canonical values
inside the modelled JSON fragment, as every value set this system produces
is), `decode (encode m)` succeeds and yields a mapping with the same keys
whose entries are the canonicalized string forms of `m`'s values (temporal
values as canonical ISO-8601 with a `Z` suffix, everything else via
`str`). -/
theorem cursor_codec_roundtrip (m : List (String × PyValue)) (sort_field : String)
    (hid : "_id" ∈ m.map Prod.fst) (hsf : sort_field ∈ m.map Prod.fst)
    (hnd : (m.map Prod.fst).Nodup)
    (hsafe : ∀ kv ∈ m, jsonSafeStr kv.1 = true ∧ jsonSafeStr (canonicalValue kv.2) = true) :
    ∃ r, PaginationCursor.decode (PaginationCursor.encode m) = Except.ok r ∧
      (r.map Prod.fst).Perm (m.map Prod.fst) ∧
      ∀ kv ∈ m, (kv.1, canonicalValue kv.2) ∈ r := by
  have hne : m ≠ [] := by
    intro habs
    subst habs
    simp at hid
  refine ⟨sortPairs (canonicalPairs m), decode_encode m hne hnd hsafe, ?_, ?_⟩
  · have hperm := (List.perm_insertionSort keyLE (canonicalPairs m)).map Prod.fst
    rw [canonicalPairs_fst] at hperm
    exact hperm
  · intro kv hkv
    exact (List.perm_insertionSort keyLE (canonicalPairs m)).mem_iff.mpr
      (List.mem_map_of_mem _ hkv)

/-- C1 witness: a concrete ObjectId/timestamp mapping round-trips. -/
theorem cursor_codec_roundtrip_witness :
    ∃ r, PaginationCursor.decode (PaginationCursor.encode
        [("_id", PyValue.str "a1"), ("releasedAt", PyValue.dt ⟨2025, 1, 2, 3, 4, 5, 0, true⟩)]) =
      Except.ok r ∧
      (r.map Prod.fst).Perm
        ([("_id", PyValue.str "a1"),
          ("releasedAt", PyValue.dt ⟨2025, 1, 2, 3, 4, 5, 0, true⟩)].map Prod.fst) ∧
      ∀ kv ∈ [("_id", PyValue.str "a1"),
          ("releasedAt", PyValue.dt ⟨2025, 1, 2, 3, 4, 5, 0, true⟩)],
        (kv.1, canonicalValue kv.2) ∈ r :=
  cursor_codec_roundtrip _ "releasedAt" (by decide) (by decide) (by decide) (by decide)

/-- Sorted-by-key with distinct keys upgrades to strictly sorted. -/
theorem sorted_strict_of_nodup {l : List (String × String)}
    (hs : List.Sorted keyLE l) (hnd : (l.map Prod.fst).Nodup) :
    List.Pairwise (fun a b : String × String => pyStrLT a.1 b.1 = true) l := by
  have hnd2 : List.Pairwise (fun a b : String × String => a.1 ≠ b.1) l :=
    List.pairwise_map.mp hnd
  refine (List.Pairwise.and hs hnd2).imp ?_
  rintro a b ⟨hle, hne⟩
  have hfalse : pyStrLT b.1 a.1 = false := by
    have : (!(pyStrLT b.1 a.1)) = true := hle
    simpa using this
  rcases listLexLT_connex hfalse with heq | hlt
  · exact absurd (string_eq_of_data_eq heq).symm hne
  · exact hlt

/-- C8: encoding determinism — two mappings with the same keys and the same
canonicalized values (in any supply order) encode to byte-identical tokens,
because the payload is serialized with sorted keys. -/
theorem encode_deterministic (m1 m2 : List (String × PyValue))
    (hnd : (m1.map Prod.fst).Nodup)
    (hperm : (canonicalPairs m1).Perm (canonicalPairs m2)) :
    PaginationCursor.encode m1 = PaginationCursor.encode m2 := by
  have hp : (sortPairs (canonicalPairs m1)).Perm (sortPairs (canonicalPairs m2)) :=
    ((List.perm_insertionSort keyLE _).trans hperm).trans
      (List.perm_insertionSort keyLE _).symm
  have hnd1 : ((sortPairs (canonicalPairs m1)).map Prod.fst).Nodup := by
    have h0 : ((canonicalPairs m1).map Prod.fst).Nodup := by
      rw [canonicalPairs_fst]
      exact hnd
    exact h0.perm ((List.perm_insertionSort keyLE _).map Prod.fst).symm
  have hnd2 : ((sortPairs (canonicalPairs m2)).map Prod.fst).Nodup :=
    hnd1.perm (hp.map Prod.fst)
  have hstrict1 := sorted_strict_of_nodup (List.sorted_insertionSort keyLE _) hnd1
  have hstrict2 := sorted_strict_of_nodup (List.sorted_insertionSort keyLE _) hnd2
  haveI : IsAntisymm (String × String) (fun a b => pyStrLT a.1 b.1 = true) :=
    ⟨fun a b h1 h2 => by
      rw [show pyStrLT b.1 a.1 = false from listLexLT_asymm h1] at h2
      exact absurd h2 Bool.false_ne_true⟩
  have h := List.eq_of_perm_of_sorted hp hstrict1 hstrict2
  show String.mk (b64encodeBytes (strToBytes (jsonDumpsSorted (canonicalPairs m1)))) =
    String.mk (b64encodeBytes (strToBytes (jsonDumpsSorted (canonicalPairs m2))))
  unfold jsonDumpsSorted
  rw [h]

/-- C8 witness: swapped key order — and a datetime versus its canonical
string — give the identical token. -/
theorem encode_deterministic_witness :
    PaginationCursor.encode
        [("_id", PyValue.str "a1"), ("releasedAt", PyValue.str "2025-01-02T03:04:05Z")] =
      PaginationCursor.encode
        [("releasedAt", PyValue.dt ⟨2025, 1, 2, 3, 4, 5, 0, true⟩), ("_id", PyValue.str "a1")] :=
  encode_deterministic _ _ (by decide) (by decide)

/-- Shared unfolding of `build_cursor_query` when the guards pass: the
tie-break disjunction in both directions, with the sort value put through
the temporal re-parse. -/
theorem build_cursor_query_eq (cursor_data : List (String × PyValue)) (sf : String)
    (idv v : PyValue) (hne : cursor_data ≠ [])
    (hid : pyGet cursor_data "_id" = idv) (hidt : idv.falsy = false)
    (hv : pyGet cursor_data sf = v) (hvn : v ≠ .pyNone) :
    PaginationCursor.build_cursor_query cursor_data sf "desc" =
      .orQ [[(sf, .ltC (reparseTemporal sf v))],
        [(sf, .eqC (reparseTemporal sf v)), ("_id", .ltC idv)]] ∧
    PaginationCursor.build_cursor_query cursor_data sf "asc" =
      .orQ [[(sf, .gtC (reparseTemporal sf v))],
        [(sf, .eqC (reparseTemporal sf v)), ("_id", .gtC idv)]] := by
  obtain ⟨kv0, t, rfl⟩ := List.exists_cons_of_ne_nil hne
  unfold PaginationCursor.build_cursor_query
  simp only [List.isEmpty_cons, Bool.false_eq_true, if_false, hid, hv, hidt,
    Bool.false_or, beq_eq_false_iff_ne.mpr hvn, if_false]
  exact ⟨rfl, rfl⟩

/-- C2 counterexample: a decoded mapping that contains both the identifier
key and the sort-field key, but with the empty string as identifier, makes
`build_cursor_query` return the empty predicate instead of the tie-break
disjunction the claim prescribes (`if not cursor_id` treats a falsy
identifier like a missing one). -/
theorem tie_break_query_cex :
    PaginationCursor.build_cursor_query
        [("_id", PyValue.str ""), ("releasedAt", PyValue.str "T0")] "releasedAt" "desc" =
      MQuery.emptyQ ∧
    MQuery.emptyQ ≠
      MQuery.orQ [[("releasedAt", MCond.ltC (PyValue.str "T0"))],
        [("releasedAt", MCond.eqC (PyValue.str "T0")), ("_id", MCond.ltC (PyValue.str ""))]] :=
  ⟨rfl, fun h => MQuery.noConfusion h⟩

/-- C2 (amended): for every decoded cursor mapping whose identifier value is
truthy and whose sort-field value is non-null, `build_cursor_query` returns
the tie-break disjunction — descending
`(sf < v) OR (sf == v AND _id < id)`, ascending with `>` — and the
descending predicate matches neither the cursor document itself nor a
document with a greater identifier at an equal sort value. -/
theorem tie_break_query (cursor_data : List (String × PyValue)) (sf : String)
    (i : String) (v : PyValue) (hne : cursor_data ≠ [])
    (hid : pyGet cursor_data "_id" = PyValue.str i)
    (hidt : (PyValue.str i).falsy = false)
    (hv : pyGet cursor_data sf = v) (hvn : v ≠ .pyNone) :
    PaginationCursor.build_cursor_query cursor_data sf "desc" =
      .orQ [[(sf, .ltC (reparseTemporal sf v))],
        [(sf, .eqC (reparseTemporal sf v)), ("_id", .ltC (PyValue.str i))]] ∧
    PaginationCursor.build_cursor_query cursor_data sf "asc" =
      .orQ [[(sf, .gtC (reparseTemporal sf v))],
        [(sf, .eqC (reparseTemporal sf v)), ("_id", .gtC (PyValue.str i))]] ∧
    (∀ d : MDoc, d.id = i → d.getV sf = some (reparseTemporal sf v) →
      matchesQuery d (PaginationCursor.build_cursor_query cursor_data sf "desc") = false) ∧
    (∀ d : MDoc, pyStrLT i d.id = true → d.getV sf = some (reparseTemporal sf v) →
      matchesQuery d (PaginationCursor.build_cursor_query cursor_data sf "desc") = false) := by
  obtain ⟨hdesc, hasc⟩ :=
    build_cursor_query_eq cursor_data sf (PyValue.str i) v hne hid hidt hv hvn
  refine ⟨hdesc, hasc, ?_, ?_⟩
  · intro d hdid hdsf
    rw [hdesc]
    unfold matchesQuery
    simp only [List.any_cons, List.any_nil, List.all_cons, List.all_nil]
    have h1 : condHolds d (sf, .ltC (reparseTemporal sf v)) = false := by
      show (match d.getV sf with
        | some w => w.mongoLT (reparseTemporal sf v)
        | none => false) = false
      rw [hdsf]
      exact mongoLT_irrefl _
    have h2 : condHolds d ("_id", .ltC (PyValue.str i)) = false := by
      show (match d.getV "_id" with
        | some w => w.mongoLT (PyValue.str i)
        | none => false) = false
      rw [show d.getV "_id" = some (PyValue.str d.id) from rfl, hdid]
      exact mongoLT_irrefl (PyValue.str i)
    rw [h1, h2]
    simp
  · intro d hlt hdsf
    rw [hdesc]
    unfold matchesQuery
    simp only [List.any_cons, List.any_nil, List.all_cons, List.all_nil]
    have h1 : condHolds d (sf, .ltC (reparseTemporal sf v)) = false := by
      show (match d.getV sf with
        | some w => w.mongoLT (reparseTemporal sf v)
        | none => false) = false
      rw [hdsf]
      exact mongoLT_irrefl _
    have h2 : condHolds d ("_id", .ltC (PyValue.str i)) = false := by
      show (match d.getV "_id" with
        | some w => w.mongoLT (PyValue.str i)
        | none => false) = false
      rw [show d.getV "_id" = some (PyValue.str d.id) from rfl]
      exact mongoLT_str_asymm hlt
    rw [h1, h2]
    simp

/-- C2 witness: cursor `{_id: "B", releasedAt: T}` descending — the built
predicate has the tie-break shape, does not match the cursor document
itself and does not match a document with a greater id at equal `T`. -/
theorem tie_break_query_witness :
    PaginationCursor.build_cursor_query
        [("_id", PyValue.str "B"), ("releasedAt", PyValue.str "2025-01-02T03:04:05Z")]
        "releasedAt" "desc" =
      MQuery.orQ [[("releasedAt", MCond.ltC (PyValue.dt ⟨2025, 1, 2, 3, 4, 5, 0, true⟩))],
        [("releasedAt", MCond.eqC (PyValue.dt ⟨2025, 1, 2, 3, 4, 5, 0, true⟩)),
          ("_id", MCond.ltC (PyValue.str "B"))]] ∧
    matchesQuery ⟨"B", [("releasedAt", PyValue.dt ⟨2025, 1, 2, 3, 4, 5, 0, true⟩)]⟩
      (PaginationCursor.build_cursor_query
        [("_id", PyValue.str "B"), ("releasedAt", PyValue.str "2025-01-02T03:04:05Z")]
        "releasedAt" "desc") = false ∧
    matchesQuery ⟨"C", [("releasedAt", PyValue.dt ⟨2025, 1, 2, 3, 4, 5, 0, true⟩)]⟩
      (PaginationCursor.build_cursor_query
        [("_id", PyValue.str "B"), ("releasedAt", PyValue.str "2025-01-02T03:04:05Z")]
        "releasedAt" "desc") = false :=
  ⟨(tie_break_query _ "releasedAt" "B" (PyValue.str "2025-01-02T03:04:05Z")
      (by decide) (by decide) (by decide) (by decide) (by decide)).1,
   (tie_break_query _ "releasedAt" "B" (PyValue.str "2025-01-02T03:04:05Z")
      (by decide) (by decide) (by decide) (by decide) (by decide)).2.2.1
      ⟨"B", [("releasedAt", PyValue.dt ⟨2025, 1, 2, 3, 4, 5, 0, true⟩)]⟩ rfl (by decide),
   (tie_break_query _ "releasedAt" "B" (PyValue.str "2025-01-02T03:04:05Z")
      (by decide) (by decide) (by decide) (by decide) (by decide)).2.2.2
      ⟨"C", [("releasedAt", PyValue.dt ⟨2025, 1, 2, 3, 4, 5, 0, true⟩)]⟩ (by decide) (by decide)⟩

/-- C4: no-cursor and incomplete-cursor fallback — an empty decoded
mapping, a mapping without the identifier key, and a mapping without the
sort-field key all make `build_cursor_query` return the empty predicate
(which matches every document), for every sort field and order; the
function is total, so no error is raised. -/
theorem no_cursor_fallback (cursor_data : List (String × PyValue)) (sf ord : String) :
    PaginationCursor.build_cursor_query [] sf ord = MQuery.emptyQ ∧
    (cursor_data.find? (fun p => p.1 == "_id") = none →
      PaginationCursor.build_cursor_query cursor_data sf ord = MQuery.emptyQ) ∧
    (cursor_data.find? (fun p => p.1 == sf) = none →
      PaginationCursor.build_cursor_query cursor_data sf ord = MQuery.emptyQ) ∧
    ∀ d : MDoc, matchesQuery d MQuery.emptyQ = true := by
  refine ⟨rfl, ?_, ?_, fun d => rfl⟩
  · intro h
    unfold PaginationCursor.build_cursor_query
    by_cases hemp : cursor_data.isEmpty = true
    · rw [if_pos hemp]
    rw [if_neg hemp]
    have hid : pyGet cursor_data "_id" = .pyNone := by
      unfold pyGet
      rw [h]
    simp only [hid]
    rw [if_pos (by rfl)]
  · intro h
    unfold PaginationCursor.build_cursor_query
    by_cases hemp : cursor_data.isEmpty = true
    · rw [if_pos hemp]
    rw [if_neg hemp]
    have hv : pyGet cursor_data sf = .pyNone := by
      unfold pyGet
      rw [h]
    simp only [hv]
    rw [if_pos (by simp)]

/-- C4 witness: a structurally valid payload lacking `_id` falls back to
the empty predicate, and a concrete document matches it. -/
theorem no_cursor_fallback_witness :
    PaginationCursor.build_cursor_query [("releasedAt", PyValue.str "x")]
      "releasedAt" "desc" = MQuery.emptyQ ∧
    matchesQuery ⟨"d1", []⟩ MQuery.emptyQ = true :=
  ⟨(no_cursor_fallback [("releasedAt", PyValue.str "x")] "releasedAt" "desc").2.1
      (by decide),
   (no_cursor_fallback [] "releasedAt" "desc").2.2.2 ⟨"d1", []⟩⟩

/-- C9: lenient temporal re-parse — for a temporal sort field whose decoded
cursor value is a string, `build_cursor_query` compares against the parsed
datetime whenever the canonical-timestamp parse succeeds (rewriting a `Z`
suffix to `+00:00` first), and on parse failure it keeps the raw string in
the tie-break predicate instead of raising. -/
theorem lenient_temporal_reparse (cursor_data : List (String × PyValue)) (sf : String)
    (idv : PyValue) (s : String) (hne : cursor_data ≠ [])
    (htemp : temporalFields.contains sf = true)
    (hid : pyGet cursor_data "_id" = idv) (hidt : idv.falsy = false)
    (hv : pyGet cursor_data sf = PyValue.str s) :
    (∀ d : PyDateTime, pyEndsWith s "Z" = true →
      fromisoformat (pyReplace s "Z" "+00:00") = some d →
      PaginationCursor.build_cursor_query cursor_data sf "desc" =
        .orQ [[(sf, .ltC (.dt d))], [(sf, .eqC (.dt d)), ("_id", .ltC idv)]]) ∧
    (∀ d : PyDateTime, pyEndsWith s "Z" = false → fromisoformat s = some d →
      PaginationCursor.build_cursor_query cursor_data sf "desc" =
        .orQ [[(sf, .ltC (.dt d))], [(sf, .eqC (.dt d)), ("_id", .ltC idv)]]) ∧
    ((if pyEndsWith s "Z" = true then fromisoformat (pyReplace s "Z" "+00:00")
        else fromisoformat s) = none →
      PaginationCursor.build_cursor_query cursor_data sf "desc" =
        .orQ [[(sf, .ltC (.str s))], [(sf, .eqC (.str s)), ("_id", .ltC idv)]]) := by
  have hdesc := (build_cursor_query_eq cursor_data sf idv (PyValue.str s) hne hid hidt hv
    (by intro habs; cases habs)).1
  refine ⟨?_, ?_, ?_⟩
  · intro d hz hparse
    rw [hdesc]
    unfold reparseTemporal
    rw [if_pos htemp]
    show (match (if pyEndsWith s "Z" = true then
        match fromisoformat (pyReplace s "Z" "+00:00") with
        | some d => PyValue.dt d
        | none => PyValue.str s
      else
        match fromisoformat s with
        | some d => PyValue.dt d
        | none => PyValue.str s) with
      | v' => MQuery.orQ [[(sf, .ltC v')], [(sf, .eqC v'), ("_id", .ltC idv)]]) = _
    rw [if_pos hz, hparse]
  · intro d hz hparse
    rw [hdesc]
    unfold reparseTemporal
    rw [if_pos htemp]
    show (match (if pyEndsWith s "Z" = true then
        match fromisoformat (pyReplace s "Z" "+00:00") with
        | some d => PyValue.dt d
        | none => PyValue.str s
      else
        match fromisoformat s with
        | some d => PyValue.dt d
        | none => PyValue.str s) with
      | v' => MQuery.orQ [[(sf, .ltC v')], [(sf, .eqC v'), ("_id", .ltC idv)]]) = _
    rw [if_neg (by rw [hz]; exact Bool.false_ne_true), hparse]
  · intro hfail
    rw [hdesc]
    unfold reparseTemporal
    rw [if_pos htemp]
    show (match (if pyEndsWith s "Z" = true then
        match fromisoformat (pyReplace s "Z" "+00:00") with
        | some d => PyValue.dt d
        | none => PyValue.str s
      else
        match fromisoformat s with
        | some d => PyValue.dt d
        | none => PyValue.str s) with
      | v' => MQuery.orQ [[(sf, .ltC v')], [(sf, .eqC v'), ("_id", .ltC idv)]]) = _
    by_cases hz : pyEndsWith s "Z" = true
    · rw [if_pos hz] at hfail ⊢
      rw [hfail]
    · rw [if_neg hz] at hfail ⊢
      rw [hfail]

/-- C9 witness: a canonical `Z`-suffixed timestamp is re-parsed into a
datetime, and a non-timestamp string is kept raw without an error. -/
theorem lenient_temporal_reparse_witness :
    PaginationCursor.build_cursor_query
        [("_id", PyValue.str "B"), ("releasedAt", PyValue.str "2025-01-02T03:04:05Z")]
        "releasedAt" "desc" =
      MQuery.orQ [[("releasedAt", MCond.ltC (PyValue.dt ⟨2025, 1, 2, 3, 4, 5, 0, true⟩))],
        [("releasedAt", MCond.eqC (PyValue.dt ⟨2025, 1, 2, 3, 4, 5, 0, true⟩)),
          ("_id", MCond.ltC (PyValue.str "B"))]] ∧
    PaginationCursor.build_cursor_query
        [("_id", PyValue.str "B"), ("releasedAt", PyValue.str "not-a-date")]
        "releasedAt" "desc" =
      MQuery.orQ [[("releasedAt", MCond.ltC (PyValue.str "not-a-date"))],
        [("releasedAt", MCond.eqC (PyValue.str "not-a-date")),
          ("_id", MCond.ltC (PyValue.str "B"))]] :=
  ⟨(lenient_temporal_reparse _ "releasedAt" (PyValue.str "B") "2025-01-02T03:04:05Z"
      (by decide) (by decide) (by decide) (by decide) (by decide)).1
      ⟨2025, 1, 2, 3, 4, 5, 0, true⟩ (by decide) (by decide),
   (lenient_temporal_reparse _ "releasedAt" (PyValue.str "B") "not-a-date"
      (by decide) (by decide) (by decide) (by decide) (by decide)).2.2 (by decide)⟩

/-- C3: page assembler postcondition — `has_next` holds exactly on
over-fetch, the page body is the first `limit` documents (the overflow row
is dropped), `next_cursor` encodes the last returned document's id and
sort-field value exactly when `has_next` holds and the trimmed page is
non-empty, `returned` is the trimmed length; an empty result yields
`has_next = false`, `returned = 0` and both cursors null, and an
exactly-`limit` result yields `has_next = false`. -/
theorem page_assembler_spec (items : List MDoc) (limit : Nat) (sf : String) (hp : Bool)
    (hlen : items.length ≤ limit + 1) :
    ((create_pagination_response items limit sf hp).has_next = true ↔
      items.length > limit) ∧
    (create_pagination_response items limit sf hp).returned =
      (items.take limit).length ∧
    (create_pagination_response items limit sf hp).next_cursor =
      (if items.length > limit then
        (items.take limit).getLast?.map (fun last_item =>
          PaginationCursor.encode [("_id", .str last_item.id), (sf, last_item.getD sf)])
      else none) ∧
    (items = [] →
      (create_pagination_response items limit sf hp).has_next = false ∧
      (create_pagination_response items limit sf hp).returned = 0 ∧
      (create_pagination_response items limit sf hp).next_cursor = none ∧
      (create_pagination_response items limit sf hp).prev_cursor = none) ∧
    (items.length = limit →
      (create_pagination_response items limit sf hp).has_next = false) := by
  refine ⟨?_, create_pagination_response_returned items limit sf hp,
    create_pagination_response_next_cursor items limit sf hp, ?_, ?_⟩
  · rw [create_pagination_response_has_next]
    simp
  · intro hempty
    subst hempty
    refine ⟨by rw [create_pagination_response_has_next]; simp,
      by rw [create_pagination_response_returned]; simp,
      by rw [create_pagination_response_next_cursor]; simp,
      by rw [create_pagination_response_prev_cursor]; simp⟩
  · intro hexact
    rw [create_pagination_response_has_next]
    simp [hexact]

/-- C3 witness: two documents at `limit = 1` — overflow detected, page
trimmed to the first document, `next_cursor` encodes it. -/
theorem page_assembler_spec_witness :
    ((create_pagination_response [⟨"a", [("releasedAt", PyValue.str "t2")]⟩,
        ⟨"b", [("releasedAt", PyValue.str "t1")]⟩] 1 "releasedAt" false).has_next = true ↔
      ([⟨"a", [("releasedAt", PyValue.str "t2")]⟩,
        ⟨"b", [("releasedAt", PyValue.str "t1")]⟩] : List MDoc).length > 1) ∧
    (create_pagination_response [⟨"a", [("releasedAt", PyValue.str "t2")]⟩,
        ⟨"b", [("releasedAt", PyValue.str "t1")]⟩] 1 "releasedAt" false).returned =
      (([⟨"a", [("releasedAt", PyValue.str "t2")]⟩,
        ⟨"b", [("releasedAt", PyValue.str "t1")]⟩] : List MDoc).take 1).length ∧
    (create_pagination_response [⟨"a", [("releasedAt", PyValue.str "t2")]⟩,
        ⟨"b", [("releasedAt", PyValue.str "t1")]⟩] 1 "releasedAt" false).next_cursor =
      (if ([⟨"a", [("releasedAt", PyValue.str "t2")]⟩,
          ⟨"b", [("releasedAt", PyValue.str "t1")]⟩] : List MDoc).length > 1 then
        (([⟨"a", [("releasedAt", PyValue.str "t2")]⟩,
          ⟨"b", [("releasedAt", PyValue.str "t1")]⟩] : List MDoc).take 1).getLast?.map
            (fun last_item => PaginationCursor.encode
              [("_id", .str last_item.id), ("releasedAt", last_item.getD "releasedAt")])
      else none) ∧
    (([⟨"a", [("releasedAt", PyValue.str "t2")]⟩,
        ⟨"b", [("releasedAt", PyValue.str "t1")]⟩] : List MDoc) = [] →
      (create_pagination_response [⟨"a", [("releasedAt", PyValue.str "t2")]⟩,
        ⟨"b", [("releasedAt", PyValue.str "t1")]⟩] 1 "releasedAt" false).has_next = false ∧
      (create_pagination_response [⟨"a", [("releasedAt", PyValue.str "t2")]⟩,
        ⟨"b", [("releasedAt", PyValue.str "t1")]⟩] 1 "releasedAt" false).returned = 0 ∧
      (create_pagination_response [⟨"a", [("releasedAt", PyValue.str "t2")]⟩,
        ⟨"b", [("releasedAt", PyValue.str "t1")]⟩] 1 "releasedAt" false).next_cursor = none ∧
      (create_pagination_response [⟨"a", [("releasedAt", PyValue.str "t2")]⟩,
        ⟨"b", [("releasedAt", PyValue.str "t1")]⟩] 1 "releasedAt" false).prev_cursor = none) ∧
    (([⟨"a", [("releasedAt", PyValue.str "t2")]⟩,
        ⟨"b", [("releasedAt", PyValue.str "t1")]⟩] : List MDoc).length = 1 →
      (create_pagination_response [⟨"a", [("releasedAt", PyValue.str "t2")]⟩,
        ⟨"b", [("releasedAt", PyValue.str "t1")]⟩] 1 "releasedAt" false).has_next = false) :=
  page_assembler_spec
    [⟨"a", [("releasedAt", PyValue.str "t2")]⟩, ⟨"b", [("releasedAt", PyValue.str "t1")]⟩]
    1 "releasedAt" false (by decide)

/-- C5: decode rejection — every input the base64 step rejects, every
base64-valid input whose decoded bytes are not a valid JSON payload, and
the empty string, make `decode` fail with `InvalidCursorException`. -/
theorem decode_rejection :
    (∀ s : String, b64decodeStr s = none →
      isCursorInvalidError (PaginationCursor.decode s) = true) ∧
    (∀ (s : String) (bs : List Nat) (txt : String), b64decodeStr s = some bs →
      bytesToAscii bs = some txt → jsonLoadsObj txt = none →
      isCursorInvalidError (PaginationCursor.decode s) = true) ∧
    isCursorInvalidError (PaginationCursor.decode "") = true := by
  refine ⟨?_, ?_, rfl⟩
  · intro s h
    unfold PaginationCursor.decode
    rw [h]
    rfl
  · intro s bs txt h1 h2 h3
    unfold PaginationCursor.decode
    rw [h1]
    show isCursorInvalidError (match bytesToAscii bs with
      | none => Except.error (decodeFailureExc "UnicodeDecodeError")
      | some decoded =>
        match jsonLoadsObj decoded with
        | none => Except.error (decodeFailureExc "JSONDecodeError")
        | some cursor_data => Except.ok cursor_data) = true
    rw [h2]
    show isCursorInvalidError (match jsonLoadsObj txt with
      | none => Except.error (decodeFailureExc "JSONDecodeError")
      | some cursor_data => Except.ok cursor_data) = true
    rw [h3]
    rfl

/-- C5 witness: `decode("not-base64!@#")` and `decode(base64("not-json"))`
both raise `InvalidCursorException`. -/
theorem decode_rejection_witness :
    isCursorInvalidError (PaginationCursor.decode "not-base64!@#") = true ∧
    isCursorInvalidError (PaginationCursor.decode "bm90LWpzb24=") = true :=
  ⟨decode_rejection.1 "not-base64!@#" (by decide),
   decode_rejection.2.1 "bm90LWpzb24=" [110, 111, 116, 45, 106, 115, 111, 110] "not-json"
     (by decide) (by decide) (by decide)⟩

/-- C6 counterexample: the exception raised by `encode`'s failure handler
is the same `InvalidCursorException` class `decode` uses — no distinct
`CursorEncodingError` exists in the code. -/
theorem encode_error_channel_cex :
    (encodeFailureExc "boom").className = (decodeFailureExc "boom").className ∧
    (encodeFailureExc "boom").className = "InvalidCursorException" :=
  ⟨rfl, rfl⟩

/-- C6 (amended): encode's defensive failure handler raises the same
`InvalidCursorException` class used by decode (distinguished only by its
message prefix), and for every well-formed input mapping encode does not
fail — the modelled body is total. -/
theorem encode_error_channel (m : List (String × PyValue)) (d1 d2 : String) :
    PaginationCursor.encodeE m = Except.ok (PaginationCursor.encode m) ∧
    (encodeFailureExc d1).className = (decodeFailureExc d2).className :=
  ⟨rfl, rfl⟩

/-- C7 counterexample: a request that supplies the cursor parameter as the
empty string (`?cursor=`) reaches the service with `params.cursor = ""`,
yet `bool(params.cursor)` is false, so `has_prev` is reported false even
though a cursor parameter was supplied. -/
theorem has_prev_cex :
    emptyCursorParams.cursor = some "" ∧
    (NewsService.get_news_list emptyCursorParams []).map (fun r => r.2.has_prev) =
      Except.ok false :=
  ⟨rfl, rfl⟩

/-- C7 (amended): `has_prev` equals the truthiness of the request's cursor
parameter — true exactly when a non-empty cursor string was supplied — and
is never derived from the fetched result set; `prev_cursor` is emitted
exactly when `has_prev` holds and the trimmed page is non-empty.  In
particular a structurally valid cursor that decodes to an empty predicate
still yields `has_prev = true`. -/
theorem has_prev_cursor_presence (params : NewsQueryParams) (fetched items : List MDoc)
    (pag : PaginationMeta)
    (h : NewsService.get_news_list params fetched = .ok (items, pag)) :
    pag.has_prev = pyTruthyOptStr params.cursor ∧
    (pag.has_prev = true ↔ ∃ s, params.cursor = some s ∧ s ≠ "") ∧
    pag.prev_cursor =
      (if pag.has_prev = true then
        (fetched.take params.limit).head?.map (fun first_item =>
          PaginationCursor.encode
            [("_id", .str first_item.id),
              (params.sort_by, first_item.getD params.sort_by)])
      else none) := by
  obtain ⟨hitems, hpag⟩ := get_news_list_ok h
  subst hpag
  rw [create_pagination_response_has_prev, create_pagination_response_prev_cursor]
  refine ⟨rfl, ?_, rfl⟩
  cases hc : params.cursor with
  | none =>
    simp only [pyTruthyOptStr]
    constructor
    · intro habs
      exact absurd habs Bool.false_ne_true
    · rintro ⟨s, hs, -⟩
      cases hs
  | some s =>
    simp only [pyTruthyOptStr, Bool.not_eq_true']
    constructor
    · intro hts
      refine ⟨s, rfl, ?_⟩
      intro habs
      subst habs
      simp at hts
    · rintro ⟨s2, hs2, hne⟩
      injection hs2 with h2
      subst h2
      rw [Bool.eq_false_iff]
      intro habs
      have hnil : s.data = [] := List.isEmpty_eq_true.mp habs
      exact hne (string_eq_of_data_eq (show s.data = String.data "" from hnil))

/-- Request parameters carrying a structurally valid cursor
(`base64('{"a": "b"}')`) whose payload lacks `_id`. -/
def garbageCursorParams : NewsQueryParams :=
  { cursor := some "eyJhIjogImIifQ==", limit := 10, sort_by := "releasedAt",
    order := "desc" }

/-- A one-document result set for the `has_prev` witness. -/
def witnessFetched : List MDoc := [⟨"d1", [("releasedAt", PyValue.str "t")]⟩]

/-- C7 witness: a structurally valid cursor that decodes to the empty
predicate still yields `has_prev = true`. -/
theorem has_prev_cursor_presence_witness :
    ∃ pag : PaginationMeta,
      (NewsService.get_news_list garbageCursorParams witnessFetched).map Prod.snd =
        Except.ok pag ∧ pag.has_prev = true := by
  refine ⟨create_pagination_response witnessFetched 10 "releasedAt"
    (pyTruthyOptStr garbageCursorParams.cursor), rfl, ?_⟩
  have hmain := has_prev_cursor_presence garbageCursorParams witnessFetched
    (witnessFetched.take 10)
    (create_pagination_response witnessFetched 10 "releasedAt"
      (pyTruthyOptStr garbageCursorParams.cursor)) rfl
  exact hmain.2.1.mpr ⟨"eyJhIjogImIifQ==", rfl, by decide⟩

/-- C10: the page assembler never mutates the caller's document list (the
model is pure; the Python code rebinds a local to a slice), so the item
list `get_news_list` returns and the metadata it reports agree: `returned`
equals the length of the returned list and both are bounded by the
requested limit. -/
theorem returned_consistency (params : NewsQueryParams) (fetched : List MDoc)
    (hlen : fetched.length ≤ params.limit + 1)
    (items : List MDoc) (pag : PaginationMeta)
    (h : NewsService.get_news_list params fetched = .ok (items, pag)) :
    pag.returned = items.length ∧ items.length ≤ params.limit ∧
      pag.returned ≤ params.limit ∧ items = fetched.take params.limit := by
  obtain ⟨hitems, hpag⟩ := get_news_list_ok h
  subst hitems hpag
  rw [create_pagination_response_returned]
  refine ⟨rfl, ?_, ?_, rfl⟩ <;>
    simp [List.length_take]

/-- C10 witness: an over-full fetch at `limit = 1` — the returned list and
the reported `returned` agree at 1. -/
theorem returned_consistency_witness :
    (create_pagination_response
        [⟨"x", []⟩, ⟨"y", []⟩] 1 "releasedAt" false).returned =
      (([⟨"x", []⟩, ⟨"y", []⟩] : List MDoc).take 1).length ∧
    (([⟨"x", []⟩, ⟨"y", []⟩] : List MDoc).take 1).length ≤ 1 := by
  have hmain := returned_consistency
    { limit := 1, sort_by := "releasedAt" } [⟨"x", []⟩, ⟨"y", []⟩] (by decide)
    (([⟨"x", []⟩, ⟨"y", []⟩] : List MDoc).take 1)
    (create_pagination_response [⟨"x", []⟩, ⟨"y", []⟩] 1 "releasedAt" false) rfl
  exact ⟨hmain.1, hmain.2.1⟩
